import Mathlib

/-!
Verification of the AVR hotkey service (src/avr.py).

The development shallowly embeds the pieces of `HotkeyService` that the
claims are about: the debounced chord detector (`_on_press`, `_on_release`,
`_parse_hotkey`), the bounded submission queue (`_process_content` and the
queue drained by `_process_queue`), the worker task
(`_process_content_item`, `_analyze_image`), the clipboard trigger callback
(`_clipboard_callback`), and the completion sink
(`_on_analysis_complete`, `_get_knowledge_file`, `_append_to_knowledge`).

External effects are made explicit: the collaborator call is a parameter
returning `Except String String` (an exception or a response), wall-clock
times are rationals, the pressed-key set is a `Finset String` of the
identifiers the Python code stores (the one-character string of a
character key, or the literal string cmd), audio cues and log lines are
returned as data, and a file append is a returned `wrote` field plus a
`writeRes : Except String Unit` parameter standing for the outcome of the
actual write.
-/

namespace AVR

/-- Kind of a queued work item: the source field of the Python code,
either screenshot or clipboard. -/
inductive Source
  | screenshot
  | clipboard
deriving DecidableEq, Repr

/-- Audio cue names passed to play_sound. -/
inductive Cue
  | start
  | complete
  | error
deriving DecidableEq, Repr

/-- Which configured chord fired: the screenshot chord or the clipboard
chord. -/
inductive Trigger
  | screenshot
  | clipboard
deriving DecidableEq, Repr

/-- Embedding of _parse_hotkey: lower-case the string, rewrite the prefix
command+ to cmd+, split on +, and collect the parts into a set. -/
def parse_hotkey (hotkey : String) : Finset String :=
  (((hotkey.toLower).replace "command+" "cmd+").splitOn "+").toFinset

/-- Embedding of the constant TRIGGER_COOLDOWN = 0.5 (seconds). -/
def TRIGGER_COOLDOWN : ℚ := 1/2

/-- Embedding of the constant MAX_QUEUE_SIZE = 10. -/
def MAX_QUEUE_SIZE : ℕ := 10

/-- Embedding of the timeout=1 argument of processing_queue.put in
_process_content (seconds). -/
def ENQUEUE_TIMEOUT : ℚ := 1

/-- Configuration of a HotkeyService instance: the hotkey field set in
__init__, the two chord fields, and the cooldown. In the code, hotkey and
screenshot_hotkey are both _parse_hotkey of the constructor argument. -/
structure Config where
  hotkey : Finset String
  screenshotHotkey : Finset String
  clipboardHotkey : Finset String
  cooldown : ℚ
deriving DecidableEq

/-- Embedding of HotkeyService.__init__ restricted to the fields the
claims are about: both hotkey and screenshot_hotkey are parsed from the
constructor argument, the clipboard chord is fixed to cmd+z. -/
def mkService (hotkeyStr : String) : Config :=
  { hotkey := parse_hotkey hotkeyStr
    screenshotHotkey := parse_hotkey hotkeyStr
    clipboardHotkey := parse_hotkey "cmd+z"
    cooldown := TRIGGER_COOLDOWN }

/-- Mutable detector state: current_keys and last_trigger_time. -/
structure DetectorState where
  currentKeys : Finset String
  lastTriggerTime : ℚ
deriving DecidableEq

/-- A raw key event as the pynput callbacks see it: a key carrying a
character, the cmd key, or any other named key (ctrl, shift, alt, ...),
which has neither a char attribute nor equals Key.cmd. -/
inductive KeyEvent
  | char (c : Char)
  | cmd
  | other
deriving DecidableEq

/-- Key-down update of current_keys in _on_press: a character key adds its
one-character string, the cmd key adds the string cmd, every other key is
ignored. -/
def press_key (k : KeyEvent) (keys : Finset String) : Finset String :=
  match k with
  | .char c => insert (String.singleton c) keys
  | .cmd => insert "cmd" keys
  | .other => keys

/-- Embedding of _on_press at time t: add the key, then, when the cooldown
has elapsed (strict comparison, as in the code), compare the pressed set
against the screenshot chord first and the clipboard chord second; a match
fires the callback, records t as last_trigger_time and clears the set. -/
def on_press (cfg : Config) (s : DetectorState) (k : KeyEvent) (t : ℚ) :
    DetectorState × Option Trigger :=
  let keys := press_key k s.currentKeys
  if cfg.cooldown < t - s.lastTriggerTime then
    if keys = cfg.screenshotHotkey then (⟨∅, t⟩, some Trigger.screenshot)
    else if keys = cfg.clipboardHotkey then (⟨∅, t⟩, some Trigger.clipboard)
    else (⟨keys, s.lastTriggerTime⟩, none)
  else (⟨keys, s.lastTriggerTime⟩, none)

/-- Run a sequence of timestamped key-down events through _on_press,
collecting the triggers that fire, in order. -/
def run_press (cfg : Config) (s : DetectorState) :
    List (KeyEvent × ℚ) → DetectorState × List Trigger
  | [] => (s, [])
  | (k, t) :: rest =>
    let st := on_press cfg s k t
    let rr := run_press cfg st.1 rest
    (rr.1, st.2.toList ++ rr.2)

/-- Key-up removal in _on_release: a character key discards its
one-character string, cmd discards the string cmd, other keys change
nothing. -/
def release_key (k : KeyEvent) (keys : Finset String) : Finset String :=
  match k with
  | .char c => keys.erase (String.singleton c)
  | .cmd => keys.erase "cmd"
  | .other => keys

/-- Embedding of _on_release: discard the released key, then clear the set
when no key of self.hotkey (the screenshot chord, as stored by __init__)
remains pressed. -/
def on_release (cfg : Config) (s : DetectorState) (k : KeyEvent) :
    DetectorState :=
  let keys := release_key k s.currentKeys
  if cfg.hotkey ∩ keys = ∅ then ⟨∅, s.lastTriggerTime⟩
  else ⟨keys, s.lastTriggerTime⟩

/-- The submission queue contents: processing_queue holds
(content, source) pairs in FIFO order, front first. -/
structure GateState where
  items : List (String × Source)
deriving DecidableEq

/-- Result of _process_content: the new queue, the cues played, and
whether the item was accepted. -/
structure ProcOut where
  gate : GateState
  cues : List Cue
  accepted : Bool
deriving DecidableEq

/-- Embedding of _process_content: put with a bounded queue either inserts
at the back when the queue is below MAX_QUEUE_SIZE, or raises queue.Full
after the timeout, in which case the caller logs a warning, plays the
error cue and drops the item. The timed wait is modelled by its outcome:
with no space the put is rejected. -/
def process_content (g : GateState) (content : String) (src : Source) :
    ProcOut :=
  if g.items.length < MAX_QUEUE_SIZE then
    ⟨⟨g.items ++ [(content, src)]⟩, [], true⟩
  else ⟨g, [Cue.error], false⟩

/-- One queue operation: an enqueue attempt by _process_content, or a
dequeue by the _process_queue loop (get removes the front item; an empty
queue leaves the state unchanged, as the loop just polls again). -/
inductive GateOp
  | enq (content : String) (src : Source)
  | deq

/-- Apply one queue operation to the queue state. -/
def gate_step (g : GateState) : GateOp → GateState
  | .enq content src => (process_content g content src).gate
  | .deq =>
    match g.items with
    | [] => g
    | _ :: rest => ⟨rest⟩

/-- Run a sequence of queue operations. -/
def run_gate (g : GateState) (ops : List GateOp) : GateState :=
  ops.foldl gate_step g

/-- Result of _clipboard_callback: new queue state, cues played in order,
and how many enqueue attempts (calls of processing_queue.put) were made. -/
structure CbOut where
  gate : GateState
  cues : List Cue
  enqueueAttempts : ℕ
deriving DecidableEq

/-- Embedding of the Python str.strip() used by _clipboard_callback:
drop whitespace characters from both ends. -/
def pyStrip (s : String) : String :=
  ⟨((s.data.dropWhile Char.isWhitespace).reverse.dropWhile
      Char.isWhitespace).reverse⟩

/-- Embedding of _clipboard_callback: play the start cue, then read the
clipboard (the parameter carries either its contents or the exception the
read raised). A read failure or a contents that strips to empty logs an
error and plays the error cue without touching the queue; otherwise the
contents is handed to _process_content. -/
def clipboard_callback (g : GateState) (clip : Except String String) :
    CbOut :=
  match clip with
  | .ok content =>
    if pyStrip content = "" then ⟨g, [Cue.start, Cue.error], 0⟩
    else
      let p := process_content g content Source.clipboard
      ⟨p.gate, Cue.start :: p.cues, 1⟩
  | .error _ => ⟨g, [Cue.start, Cue.error], 0⟩

/-- Embedding of _analyze_image: perform the collaborator call once; a
response is returned as is, an exception is caught inside _analyze_image
and rendered as an error-description string. -/
def analyze_image (collab : String → Except String String)
    (base64Img : String) : String :=
  match collab base64Img with
  | .ok s => s
  | .error e => "❌ Failed to analyze image: " ++ e

/-- The clipboard formatting f-string of _process_content_item. -/
def clipboard_format (ts content : String) : String :=
  "# Clipboard Content (" ++ ts ++ ")\n\n" ++ content ++ "\n\n---"

/-- Result of a worker task: the analysis text, the success flag, and the
number of collaborator calls the task performed. -/
structure WorkerOut where
  analysis : String
  success : Bool
  collaboratorCalls : ℕ
deriving DecidableEq

/-- Embedding of _process_content_item: the screenshot branch calls
_analyze_image (exactly one collaborator call), the clipboard branch
formats locally. The success flag is the literal True assigned on line 288
of the source; the except branch returning (str(e), False) is unreachable
for collaborator failures, because _analyze_image catches them itself and
returns the error text as the analysis. -/
def process_content_item (collab : String → Except String String)
    (ts content : String) (src : Source) : WorkerOut :=
  match src with
  | .screenshot => ⟨analyze_image collab content, true, 1⟩
  | .clipboard => ⟨clipboard_format ts content, true, 0⟩

/-- Embedding of _get_knowledge_file: raise when no knowledge root is
configured, otherwise join the root with the date-derived file name. -/
def get_knowledge_file (root : Option String) (today : String) :
    Except String String :=
  match root with
  | none => Except.error "KNOWLEDGE_SOURCE_PATH not set in environment"
  | some r => Except.ok (r ++ "/running_knowledge_" ++ today ++ ".md")

/-- The exact text one call of _append_to_knowledge appends: heading,
analysis, trailing separator line. -/
def knowledge_entry (ts analysis : String) : String :=
  "\n\n## Captured at " ++ ts ++ "\n\n" ++ analysis ++ "\n\n---\n"

/-- Result of _append_to_knowledge: what was written (file path and
appended text, if the write succeeded), the log lines printed, and
whether an exception escaped the call. -/
structure AppendOut where
  wrote : Option (String × String)
  logs : List String
  raised : Bool
deriving DecidableEq

/-- Embedding of _append_to_knowledge: compute the file path (which can
raise when no root is configured), attempt the single write whose outcome
is the writeRes parameter, and catch any failure by logging it; nothing
escapes and nothing is retried. -/
def append_to_knowledge (root : Option String) (today ts : String)
    (writeRes : Except String Unit) (analysis : String) : AppendOut :=
  match get_knowledge_file root today with
  | .error e => ⟨none, ["❌ Failed to save analysis: " ++ e], false⟩
  | .ok file =>
    match writeRes with
    | .ok _ =>
      ⟨some (file, knowledge_entry ts analysis),
       ["📝 Analysis appended to " ++ file], false⟩
    | .error e => ⟨none, ["❌ Failed to save analysis: " ++ e], false⟩

/-- Result of _on_analysis_complete: cues played in order, what was
written to the knowledge store, and the log lines printed (console output
of the analysis text itself is omitted). -/
structure SinkOut where
  cues : List Cue
  wrote : Option (String × String)
  logs : List String
deriving DecidableEq

/-- Embedding of _on_analysis_complete: res carries future.result(),
either the (analysis, success) pair or the exception it re-raised. On a
pair, play error or complete according to the flag, then, when a
knowledge root is configured, call _append_to_knowledge and play complete;
otherwise play error. An exception from the future is caught by the outer
handler, which logs and plays error. -/
def on_analysis_complete (root : Option String) (today ts : String)
    (writeRes : Except String Unit)
    (res : Except String (String × Bool)) : SinkOut :=
  match res with
  | .error e =>
    ⟨[Cue.error], none, ["Error handling analysis completion: " ++ e]⟩
  | .ok (analysis, success) =>
    let c1 : Cue := if success then Cue.complete else Cue.error
    match root with
    | none => ⟨[c1, Cue.error], none, []⟩
    | some r =>
      let ap := append_to_knowledge (some r) today ts writeRes analysis
      ⟨[c1, Cue.complete], ap.wrote, ap.logs⟩

/-- The configured chord a given trigger kind matches against in
_on_press. -/
def chordOf (cfg : Config) : Trigger → Finset String
  | .screenshot => cfg.screenshotHotkey
  | .clipboard => cfg.clipboardHotkey

/-- The key identifiers _on_press can ever put into current_keys: the
one-character string of a character key, or the string cmd. -/
def good_key (e : String) : Prop := e.length = 1 ∨ e = "cmd"

/-- C1 (status code_bug): at the failing input, a screenshot item whose
collaborator call raises is returned with success True, not False: the
task hands back the error description as analysis together with the
literal True of line 288, and the completion handler then plays complete
and appends the error text to a configured knowledge store. The claim
(and the spec) require succeeded false, an error cue and no store write;
the except branch of _process_content_item that would return False is
unreachable for collaborator failures because _analyze_image catches them
itself. -/
theorem screenshot_collaborator_failure_result :
    process_content_item (fun _ => Except.error "network error") "12:00:00"
        "imgdata" Source.screenshot
      = ⟨"❌ Failed to analyze image: network error", true, 1⟩
    ∧ on_analysis_complete (some "/kb") "20250101" "12:00:00" (Except.ok ())
        (Except.ok ("❌ Failed to analyze image: network error", true))
      = ⟨[Cue.complete, Cue.complete],
         some ("/kb/running_knowledge_20250101.md",
           knowledge_entry "12:00:00" "❌ Failed to analyze image: network error"),
         ["📝 Analysis appended to /kb/running_knowledge_20250101.md"]⟩ :=
  ⟨rfl, rfl⟩

/-- C2 counterexample: with a knowledge store configured, a completed
analysis with success False does not produce only the error cue, and it
does perform a knowledge-store append. -/
theorem failed_result_still_appended :
    (on_analysis_complete (some "/kb") "20250101" "10:00:00" (Except.ok ())
        (Except.ok ("boom", false))).cues ≠ [Cue.error]
    ∧ (on_analysis_complete (some "/kb") "20250101" "10:00:00" (Except.ok ())
        (Except.ok ("boom", false))).wrote ≠ none := by
  refine ⟨?_, ?_⟩ <;> decide

/-- C2 (status corrected): on a completed analysis with success False the
handler first plays the error cue; then, with no knowledge store
configured, it plays a second error cue and writes nothing, while with a
store configured it appends the analysis to the store (logging the
outcome) and plays a complete cue. -/
theorem failure_completion_behavior (r today ts a e : String) :
    on_analysis_complete none today ts (Except.ok ()) (Except.ok (a, false))
      = ⟨[Cue.error, Cue.error], none, []⟩
    ∧ on_analysis_complete (some r) today ts (Except.ok ())
        (Except.ok (a, false))
      = ⟨[Cue.error, Cue.complete],
         some (r ++ "/running_knowledge_" ++ today ++ ".md",
           knowledge_entry ts a),
         ["📝 Analysis appended to "
            ++ (r ++ "/running_knowledge_" ++ today ++ ".md")]⟩
    ∧ on_analysis_complete (some r) today ts (Except.error e)
        (Except.ok (a, false))
      = ⟨[Cue.error, Cue.complete], none,
         ["❌ Failed to save analysis: " ++ e]⟩ :=
  ⟨rfl, rfl, rfl⟩

/-- C5: a clipboard work item is processed without any collaborator call
and always yields success True, with the clipboard content wrapped
between a timestamp header and a separator, so the analysis contains the
original content as a substring. -/
theorem clipboard_item_always_succeeds
    (collab : String → Except String String) (ts content : String)
    (_h : content ≠ "") :
    (process_content_item collab ts content Source.clipboard).success = true
    ∧ (process_content_item collab ts content
        Source.clipboard).collaboratorCalls = 0
    ∧ (process_content_item collab ts content Source.clipboard).analysis
        = "# Clipboard Content (" ++ ts ++ ")\n\n" ++ content ++ "\n\n---"
    ∧ ∃ pre post,
        (process_content_item collab ts content Source.clipboard).analysis
          = pre ++ content ++ post :=
  ⟨rfl, rfl, rfl, "# Clipboard Content (" ++ ts ++ ")\n\n", "\n\n---", rfl⟩

/-- C5 witness: the clipboard item with content hello. -/
theorem clipboard_item_always_succeeds_witness :
    ("hello" : String) ≠ ""
    ∧ (process_content_item (fun _ => Except.error "down")
        "2024-01-01 10:00:00" "hello" Source.clipboard).success = true
    ∧ (process_content_item (fun _ => Except.error "down")
        "2024-01-01 10:00:00" "hello" Source.clipboard).collaboratorCalls = 0
    ∧ (process_content_item (fun _ => Except.error "down")
        "2024-01-01 10:00:00" "hello" Source.clipboard).analysis
        = "# Clipboard Content (" ++ "2024-01-01 10:00:00" ++ ")\n\n"
            ++ "hello" ++ "\n\n---"
    ∧ ∃ pre post,
        (process_content_item (fun _ => Except.error "down")
          "2024-01-01 10:00:00" "hello" Source.clipboard).analysis
          = pre ++ "hello" ++ post :=
  ⟨by decide,
   clipboard_item_always_succeeds (fun _ => Except.error "down")
     "2024-01-01 10:00:00" "hello" (by decide)⟩

/-- C6: when the clipboard read returns a string that strips to empty,
the callback plays start then error and makes no enqueue attempt, leaving
the queue untouched. -/
theorem empty_clipboard_short_circuits (g : GateState) (content : String)
    (h : pyStrip content = "") :
    clipboard_callback g (Except.ok content)
      = ⟨g, [Cue.start, Cue.error], 0⟩ := by
  simp [clipboard_callback, h]

/-- C6 witness: a whitespace-only clipboard on an empty queue. -/
theorem empty_clipboard_short_circuits_witness :
    pyStrip "   " = ""
    ∧ clipboard_callback ⟨[]⟩ (Except.ok "   ")
        = ⟨⟨[]⟩, [Cue.start, Cue.error], 0⟩ :=
  ⟨by decide, empty_clipboard_short_circuits ⟨[]⟩ "   " (by decide)⟩

/-- C8: a completed analysis with success True and no knowledge store
configured plays the complete cue followed by an error cue, and writes
nothing. -/
theorem success_without_store_emits_error (today ts a : String)
    (w : Except String Unit) :
    on_analysis_complete none today ts w (Except.ok (a, true))
      = ⟨[Cue.complete, Cue.error], none, []⟩ := rfl

/-- C9: the knowledge file path is the configured root joined with a name
derived from the current date (so all appends of one day target one
file), each successful append writes exactly the Captured-at heading, the
analysis text and the trailing separator, and a failed write is logged
without raising; a missing root raises inside _get_knowledge_file and is
caught and logged the same way. The function performs at most one write
per call, so nothing is retried. -/
theorem knowledge_append_behavior (root today ts analysis e : String) :
    get_knowledge_file (some root) today
      = Except.ok (root ++ "/running_knowledge_" ++ today ++ ".md")
    ∧ get_knowledge_file none today
      = Except.error "KNOWLEDGE_SOURCE_PATH not set in environment"
    ∧ append_to_knowledge (some root) today ts (Except.ok ()) analysis
      = ⟨some (root ++ "/running_knowledge_" ++ today ++ ".md",
           "\n\n## Captured at " ++ ts ++ "\n\n" ++ analysis ++ "\n\n---\n"),
         ["📝 Analysis appended to "
            ++ (root ++ "/running_knowledge_" ++ today ++ ".md")], false⟩
    ∧ append_to_knowledge (some root) today ts (Except.error e) analysis
      = ⟨none, ["❌ Failed to save analysis: " ++ e], false⟩ :=
  ⟨rfl, rfl, rfl, rfl⟩

/-- One queue operation keeps the queue within its capacity. -/
lemma gate_step_length_le (g : GateState) (op : GateOp)
    (h : g.items.length ≤ MAX_QUEUE_SIZE) :
    (gate_step g op).items.length ≤ MAX_QUEUE_SIZE := by
  cases op with
  | enq content src =>
    simp only [gate_step, process_content]
    split
    · next hlt => simp only [List.length_append, List.length_singleton]; omega
    · exact h
  | deq =>
    simp only [gate_step]
    cases hg : g.items with
    | nil => simp [hg]
    | cons x rest =>
      rw [hg] at h
      simp only [List.length_cons] at h
      show rest.length ≤ MAX_QUEUE_SIZE
      omega

/-- C3: starting within capacity, any sequence of enqueue attempts and
dequeues leaves the queue within its capacity of MAX_QUEUE_SIZE items;
an enqueue attempt against a full queue is rejected, leaving the queue
unchanged (the item is never inserted) and playing the error cue; the
capacity default is 10 and the put timeout default is 1 second. -/
theorem queue_bounded_and_rejects_when_full :
    (∀ (g : GateState) (ops : List GateOp),
        g.items.length ≤ MAX_QUEUE_SIZE →
        (run_gate g ops).items.length ≤ MAX_QUEUE_SIZE)
    ∧ (∀ (g : GateState) (content : String) (src : Source),
        g.items.length = MAX_QUEUE_SIZE →
        process_content g content src = ⟨g, [Cue.error], false⟩)
    ∧ MAX_QUEUE_SIZE = 10 ∧ ENQUEUE_TIMEOUT = 1 := by
  refine ⟨?_, ?_, rfl, rfl⟩
  · intro g ops
    induction ops generalizing g with
    | nil => intro h; simpa [run_gate] using h
    | cons op rest ih =>
      intro h
      have hstep := gate_step_length_le g op h
      simpa [run_gate] using ih _ hstep
  · intro g content src h
    simp [process_content, h]

/-- C3 witness: a queue of 10 items rejects the next enqueue attempt. -/
theorem queue_bounded_and_rejects_when_full_witness :
    (⟨List.replicate 10 ("a", Source.clipboard)⟩ : GateState).items.length
        = MAX_QUEUE_SIZE
    ∧ process_content ⟨List.replicate 10 ("a", Source.clipboard)⟩ "b"
        Source.screenshot
      = ⟨⟨List.replicate 10 ("a", Source.clipboard)⟩, [Cue.error], false⟩ :=
  ⟨by decide,
   queue_bounded_and_rejects_when_full.2.1 ⟨List.replicate 10
     ("a", Source.clipboard)⟩ "b" Source.screenshot (by decide)⟩

/-- When the cooldown has not elapsed, a key press only updates the
pressed set: nothing fires and last_trigger_time is unchanged. -/
lemma on_press_suppressed (cfg : Config) (s : DetectorState) (k : KeyEvent)
    (t : ℚ) (h : ¬ cfg.cooldown < t - s.lastTriggerTime) :
    on_press cfg s k t
      = (⟨press_key k s.currentKeys, s.lastTriggerTime⟩, none) := by
  simp only [on_press]
  rw [if_neg h]

/-- When _on_press fires a trigger, the pressed set (after adding the
key) equals that trigger's chord, and the state is cleared with
last_trigger_time set to the event time. -/
lemma on_press_fires (cfg : Config) (s : DetectorState) (k : KeyEvent)
    (t : ℚ) (tr : Trigger) (h : (on_press cfg s k t).2 = some tr) :
    press_key k s.currentKeys = chordOf cfg tr
    ∧ (on_press cfg s k t).1 = ⟨∅, t⟩ := by
  simp only [on_press] at h ⊢
  split at h
  · split at h
    · next heq =>
      simp only [Option.some.injEq] at h
      subst h
      exact ⟨heq, by split <;> simp_all⟩
    · split at h
      · next heq =>
        simp only [Option.some.injEq] at h
        subst h
        exact ⟨heq, by split <;> simp_all⟩
      · simp at h
  · simp at h

/-- A run of key presses whose times all stay within the cooldown window
of the current last_trigger_time fires nothing and keeps
last_trigger_time unchanged. -/
lemma run_press_no_fire (cfg : Config) (evs : List (KeyEvent × ℚ)) :
    ∀ s : DetectorState,
    (∀ p ∈ evs, p.2 - s.lastTriggerTime < cfg.cooldown) →
    (run_press cfg s evs).2 = []
    ∧ (run_press cfg s evs).1.lastTriggerTime = s.lastTriggerTime := by
  induction evs with
  | nil => intro s _; simp [run_press]
  | cons p rest ih =>
    intro s h
    obtain ⟨k, t⟩ := p
    have hlt : t - s.lastTriggerTime < cfg.cooldown :=
      h (k, t) (List.mem_cons_self _ _)
    have hsup := on_press_suppressed cfg s k t (lt_asymm hlt)
    have hrest := ih ⟨press_key k s.currentKeys, s.lastTriggerTime⟩
      (fun q hq => h q (List.mem_cons_of_mem _ hq))
    simp only [run_press, hsup]
    simpa using hrest

/-- C4: once a press fires a trigger at time t1, every further press whose
time lies less than the cooldown after t1 is fully suppressed, whichever
chord it completes (the timestamp is the single shared field the
comparison uses): the whole run fires exactly the one trigger, and no
suppressed match is queued, as the final state still carries t1 as the
only record of the window. -/
theorem cooldown_suppresses_rapid_retrigger (cfg : Config)
    (s s1 : DetectorState) (k1 : KeyEvent) (t1 : ℚ) (tr : Trigger)
    (evs : List (KeyEvent × ℚ))
    (hfire : on_press cfg s k1 t1 = (s1, some tr))
    (hwin : ∀ p ∈ evs, p.2 - t1 < cfg.cooldown) :
    (run_press cfg s ((k1, t1) :: evs)).2 = [tr]
    ∧ (run_press cfg s ((k1, t1) :: evs)).1.lastTriggerTime = t1 := by
  have hsnd : (on_press cfg s k1 t1).2 = some tr := by rw [hfire]
  have hfst : (on_press cfg s k1 t1).1 = ⟨∅, t1⟩ :=
    (on_press_fires cfg s k1 t1 tr hsnd).2
  have hrest := run_press_no_fire cfg evs ⟨∅, t1⟩ (by simpa using hwin)
  simp only [run_press, hfst, hsnd]
  simpa using hrest

/-- C4 witness: with chords cmd+x and cmd+z and cooldown one half, a fire
at time 1 suppresses a cmd press at 5/4 and a matching z press at 11/8,
so the run fires exactly one trigger. -/
theorem cooldown_suppresses_rapid_retrigger_witness :
    (run_press ⟨{"cmd", "x"}, {"cmd", "x"}, {"cmd", "z"}, 1/2⟩
        ⟨{"cmd"}, 0⟩
        [(KeyEvent.char 'x', 1), (KeyEvent.cmd, 5/4),
         (KeyEvent.char 'z', 11/8)]).2
      = [Trigger.screenshot]
    ∧ (run_press ⟨{"cmd", "x"}, {"cmd", "x"}, {"cmd", "z"}, 1/2⟩
        ⟨{"cmd"}, 0⟩
        [(KeyEvent.char 'x', 1), (KeyEvent.cmd, 5/4),
         (KeyEvent.char 'z', 11/8)]).1.lastTriggerTime = 1 := by
  have hset : insert (String.singleton 'x') ({"cmd"} : Finset String)
      = {"cmd", "x"} := by decide
  have hfire : on_press ⟨{"cmd", "x"}, {"cmd", "x"}, {"cmd", "z"}, 1/2⟩
      ⟨{"cmd"}, 0⟩ (KeyEvent.char 'x') 1
      = (⟨∅, 1⟩, some Trigger.screenshot) := by
    simp only [on_press, press_key, hset]
    rw [if_pos (by norm_num)]
    simp
  exact cooldown_suppresses_rapid_retrigger _ _ _ _ _ _ _ hfire
    (by
      intro p hp
      simp only [List.mem_cons, List.not_mem_nil, or_false] at hp
      rcases hp with rfl | rfl <;> norm_num)

/-- C7: on key-up the released key's identifier is gone from the pressed
set, and whenever no key of either configured chord remains pressed after
the removal, the whole set is cleared (the code clears already when no
key of the screenshot chord remains, which covers that case, since
hotkey and screenshot_hotkey are both parsed from the constructor
argument). -/
theorem release_removes_key_and_clears (cfg : Config)
    (hcfg : cfg.hotkey = cfg.screenshotHotkey) (s : DetectorState)
    (k : KeyEvent) :
    (∀ c, k = KeyEvent.char c →
        String.singleton c ∉ (on_release cfg s k).currentKeys)
    ∧ (k = KeyEvent.cmd → "cmd" ∉ (on_release cfg s k).currentKeys)
    ∧ ((cfg.screenshotHotkey ∪ cfg.clipboardHotkey)
          ∩ release_key k s.currentKeys = ∅ →
        (on_release cfg s k).currentKeys = ∅) := by
  refine ⟨?_, ?_, ?_⟩
  · intro c hk
    subst hk
    simp only [on_release, release_key]
    split
    · simp
    · exact Finset.not_mem_erase _ _
  · intro hk
    subst hk
    simp only [on_release, release_key]
    split
    · simp
    · exact Finset.not_mem_erase _ _
  · intro hdisj
    have hsub : cfg.screenshotHotkey ∩ release_key k s.currentKeys
        ⊆ (cfg.screenshotHotkey ∪ cfg.clipboardHotkey)
          ∩ release_key k s.currentKeys :=
      Finset.inter_subset_inter Finset.subset_union_left (le_refl _)
    have hempty : cfg.hotkey ∩ release_key k s.currentKeys = ∅ := by
      rw [hcfg]
      exact Finset.subset_empty.mp (hdisj ▸ hsub)
    simp only [on_release]
    rw [if_pos hempty]

/-- C7 witness: releasing the x key while only x is pressed removes it and,
since no chord key remains, clears the set. -/
theorem release_removes_key_and_clears_witness :
    String.singleton 'x' ∉ (on_release
        ⟨{"cmd", "x"}, {"cmd", "x"}, {"cmd", "z"}, 1/2⟩
        ⟨{"x"}, 0⟩ (KeyEvent.char 'x')).currentKeys
    ∧ (on_release ⟨{"cmd", "x"}, {"cmd", "x"}, {"cmd", "z"}, 1/2⟩
        ⟨{"x"}, 0⟩ (KeyEvent.char 'x')).currentKeys = ∅ :=
  ⟨(release_removes_key_and_clears
      ⟨{"cmd", "x"}, {"cmd", "x"}, {"cmd", "z"}, 1/2⟩ rfl
      ⟨{"x"}, 0⟩ (KeyEvent.char 'x')).1 'x' rfl,
   (release_removes_key_and_clears
      ⟨{"cmd", "x"}, {"cmd", "x"}, {"cmd", "z"}, 1/2⟩ rfl
      ⟨{"x"}, 0⟩ (KeyEvent.char 'x')).2.2 (by decide)⟩

/-- Adding a key on key-down preserves the shape invariant of the pressed
set: every stored identifier is a one-character string or cmd. -/
lemma press_key_good (k : KeyEvent) (keys : Finset String)
    (h : ∀ e ∈ keys, good_key e) :
    ∀ e ∈ press_key k keys, good_key e := by
  cases k with
  | char c =>
    intro e he
    rcases Finset.mem_insert.mp he with rfl | he'
    · exact Or.inl rfl
    · exact h e he'
  | cmd =>
    intro e he
    rcases Finset.mem_insert.mp he with rfl | he'
    · exact Or.inr rfl
    · exact h e he'
  | other => exact h

/-- An _on_press step preserves the shape invariant of the pressed set. -/
lemma on_press_state_good (cfg : Config) (s : DetectorState) (k : KeyEvent)
    (t : ℚ) (h : ∀ e ∈ s.currentKeys, good_key e) :
    ∀ e ∈ (on_press cfg s k t).1.currentKeys, good_key e := by
  simp only [on_press]
  split
  · split
    · intro e he; simp at he
    · split
      · intro e he; simp at he
      · exact press_key_good k _ h
  · exact press_key_good k _ h

/-- C10: a configured chord holding an identifier that is neither a
one-character string (the identifier a character key contributes) nor
cmd can never equal the pressed set, so no sequence of key-down events
ever fires that chord's trigger. -/
theorem unmatchable_chord_never_fires (cfg : Config) (tr : Trigger)
    (bad : String) (hmem : bad ∈ chordOf cfg tr) (hlen : bad.length ≠ 1)
    (hcmd : bad ≠ "cmd") (s : DetectorState)
    (hgood : ∀ e ∈ s.currentKeys, good_key e)
    (evs : List (KeyEvent × ℚ)) :
    tr ∉ (run_press cfg s evs).2 := by
  induction evs generalizing s with
  | nil => simp [run_press]
  | cons p rest ih =>
    obtain ⟨k, t⟩ := p
    simp only [run_press]
    intro hin
    rcases List.mem_append.mp hin with hin1 | hin2
    · have hsnd : (on_press cfg s k t).2 = some tr := by
        cases hop : (on_press cfg s k t).2 with
        | none => rw [hop] at hin1; simp at hin1
        | some tr' =>
          rw [hop] at hin1
          simp only [Option.toList_some, List.mem_singleton] at hin1
          rw [hin1]
      have heq := (on_press_fires cfg s k t tr hsnd).1
      have hbad : good_key bad :=
        press_key_good k s.currentKeys hgood bad (heq ▸ hmem)
      rcases hbad with h1 | h1
      · exact hlen h1
      · exact hcmd h1
    · exact ih _ (on_press_state_good cfg s k t hgood) hin2

/-- C10 witness: a chord containing ctrl is never fired, here over a run
that presses a named key, then x, then cmd. -/
theorem unmatchable_chord_never_fires_witness :
    ("ctrl" : String)
        ∈ chordOf ⟨{"ctrl", "x"}, {"ctrl", "x"}, {"cmd", "z"}, 1/2⟩
            Trigger.screenshot
    ∧ Trigger.screenshot
        ∉ (run_press ⟨{"ctrl", "x"}, {"ctrl", "x"}, {"cmd", "z"}, 1/2⟩
            ⟨∅, 0⟩
            [(KeyEvent.other, 1), (KeyEvent.char 'x', 2),
             (KeyEvent.cmd, 3)]).2 :=
  ⟨by decide,
   unmatchable_chord_never_fires
     ⟨{"ctrl", "x"}, {"ctrl", "x"}, {"cmd", "z"}, 1/2⟩ Trigger.screenshot
     "ctrl" (by decide) (by decide) (by decide) ⟨∅, 0⟩
     (fun e he => absurd he (Finset.not_mem_empty e)) _⟩

end AVR
